import Mathlib

/-!
Shallow embedding of the CSV-comparison tool in `src/app.py`:
the loader `read_csv_safely`, the difference engine `find_unique_records`,
and the schema-check / combine fragments of `main`.

Modelling conventions:
  * a pandas `DataFrame` is a `Table`: an ordered list of column names and an
    ordered list of rows, each row a list of cell values (cells compared by
    structural equality, so the cell type is a parameter with `DecidableEq`);
  * a Python `set` of row tuples is represented by a deduplicated list; set
    difference is a membership filter (Python set iteration order is
    implementation-defined, so all set-level claims are stated about
    `List.toFinset` of the resulting rows);
  * the two pandas parse passes of `read_csv_safely` are external library
    calls; they are abstract parameters returning `Except String (Table α)`
    (an exception is an `.error`), while the control flow around them is
    translated from the source;
  * raw file bytes are `List Nat`; `bytes.decode("utf-8")` is modelled by an
    executable strict UTF-8 decoder returning the list of code points.
-/

set_option maxHeartbeats 1000000
set_option linter.unusedVariables false

namespace Duplicates

/-- A pandas `DataFrame`, as used by `app.py`: ordered column names plus
ordered rows of cell values, rows aligned positionally to columns. -/
structure Table (α : Type) where
  columns : List String
  rows : List (List α)
deriving DecidableEq

/-- `set(df.apply(tuple, axis=1))`, the deduplicated set of full-row keys of a
table, as a `Finset`. -/
def rowSet {α : Type} [DecidableEq α] (t : Table α) : Finset (List α) :=
  t.rows.toFinset

/-- `find_unique_records` (src/app.py lines 39-56): convert each dataframe to a
set of row tuples, take the two set differences, and rebuild a dataframe over
each input's own columns.  The Python sets are modelled as deduplicated lists
and set difference as a membership filter; `list(set)` iteration order is
implementation-defined, so claims about the results are stated at the level of
`rowSet`. -/
def find_unique_records {α : Type} [DecidableEq α] (df1 df2 : Table α) :
    Table α × Table α :=
  let df1_records := df1.rows.dedup
  let df2_records := df2.rows.dedup
  let unique_in_df1 := df1_records.filter (fun r => decide (r ∉ df2_records))
  let unique_in_df2 := df2_records.filter (fun r => decide (r ∉ df1_records))
  (⟨df1.columns, unique_in_df1⟩, ⟨df2.columns, unique_in_df2⟩)

section DiffEngineLemmas

variable {α : Type} [DecidableEq α]

theorem mem_unique_fst (df1 df2 : Table α) (r : List α) :
    r ∈ (find_unique_records df1 df2).1.rows ↔ r ∈ df1.rows ∧ r ∉ df2.rows := by
  simp [find_unique_records, List.mem_filter, List.mem_dedup]

theorem mem_unique_snd (df1 df2 : Table α) (r : List α) :
    r ∈ (find_unique_records df1 df2).2.rows ↔ r ∈ df2.rows ∧ r ∉ df1.rows := by
  simp [find_unique_records, List.mem_filter, List.mem_dedup]

theorem columns_unique_fst (df1 df2 : Table α) :
    (find_unique_records df1 df2).1.columns = df1.columns := rfl

theorem columns_unique_snd (df1 df2 : Table α) :
    (find_unique_records df1 df2).2.columns = df2.columns := rfl

theorem rowSet_unique_fst (df1 df2 : Table α) :
    rowSet (find_unique_records df1 df2).1 = rowSet df1 \ rowSet df2 := by
  ext r
  simp [rowSet, mem_unique_fst]

theorem rowSet_unique_snd (df1 df2 : Table α) :
    rowSet (find_unique_records df1 df2).2 = rowSet df2 \ rowSet df1 := by
  ext r
  simp [rowSet, mem_unique_snd]

theorem nodup_unique_fst (df1 df2 : Table α) :
    (find_unique_records df1 df2).1.rows.Nodup :=
  (df1.rows.nodup_dedup).filter _

theorem nodup_unique_snd (df1 df2 : Table α) :
    (find_unique_records df1 df2).2.rows.Nodup :=
  (df2.rows.nodup_dedup).filter _

end DiffEngineLemmas

/-- A UTF-8 continuation byte (`0x80 ≤ b < 0xC0`). -/
def isCont (b : Nat) : Bool := decide (0x80 ≤ b) && decide (b < 0xC0)

/-- One-byte-at-a-time UTF-8 decoding automaton.  `exp` is the number of
continuation bytes still expected for the current sequence, `acc` the code
point bits accumulated so far, and `lo`/`hi` the admissible half-open range
for the next continuation byte (tightened after `E0`/`ED`/`F0`/`F4` start
bytes to reject overlong encodings, surrogates and values above `U+10FFFF`,
as CPython's strict decoder does). -/
def utf8DecodeAux (exp acc lo hi : Nat) : List Nat → Except String (List Nat)
  | [] => if exp = 0 then .ok [] else .error "unexpected end of data"
  | b :: rest =>
    if exp = 0 then
      if b < 0x80 then (utf8DecodeAux 0 0 0 0 rest).map (fun cs => b :: cs)
      else if b < 0xC2 then .error "invalid start byte"
      else if b < 0xE0 then utf8DecodeAux 1 (b - 0xC0) 0x80 0xC0 rest
      else if b = 0xE0 then utf8DecodeAux 2 0 0xA0 0xC0 rest
      else if b = 0xED then utf8DecodeAux 2 0xD 0x80 0xA0 rest
      else if b < 0xF0 then utf8DecodeAux 2 (b - 0xE0) 0x80 0xC0 rest
      else if b = 0xF0 then utf8DecodeAux 3 0 0x90 0xC0 rest
      else if b = 0xF4 then utf8DecodeAux 3 4 0x80 0x90 rest
      else if b < 0xF5 then utf8DecodeAux 3 (b - 0xF0) 0x80 0xC0 rest
      else .error "invalid start byte"
    else
      if lo ≤ b ∧ b < hi then
        if exp = 1 then
          (utf8DecodeAux 0 0 0 0 rest).map (fun cs => (acc * 0x40 + (b - 0x80)) :: cs)
        else utf8DecodeAux (exp - 1) (acc * 0x40 + (b - 0x80)) 0x80 0xC0 rest
      else .error "invalid continuation byte"

/-- Modelled from the spec: `bytes.decode("utf-8")` from the Python standard
library (called at src/app.py line 12 and line 79; the decoder itself is not
part of this repository).  Strict UTF-8 decoding of a byte list into the list
of code points, rejecting malformed and truncated sequences; a rejection
models a raised `UnicodeDecodeError`. -/
def utf8Decode (l : List Nat) : Except String (List Nat) :=
  utf8DecodeAux 0 0 0 0 l

/-- `read_csv_safely` (src/app.py lines 5-37).  The body first decodes the
first 1024 bytes of the file as UTF-8 (line 12); a raised decode error is
caught by the outer handler and returned as `(None, str(e))`.  Otherwise the
lenient pandas pass (python engine, `on_bad_lines="warn"`) is tried; if it
raises, the strict-fast pass (C engine, `on_bad_lines="skip"`) is tried from
the start of the file; if that also raises, the outer handler returns
`(None, str(e))` with the second exception's message.  The two pandas calls
are external library code and enter the model as the parameters
`lenientParse` and `strictParse`. -/
def read_csv_safely {α : Type}
    (lenientParse strictParse : List Nat → Except String (Table α))
    (file : List Nat) : Option (Table α) × Option String :=
  match utf8Decode (file.take 1024) with
  | .error e => (none, some e)
  | .ok _ =>
    match lenientParse file with
    | .ok df => (some df, none)
    | .error _ =>
      match strictParse file with
      | .ok df => (some df, none)
      | .error e => (none, some e)

/-- The debugging excerpt `main` displays on a load failure
(src/app.py lines 77-79 and 86-88): decode the whole file as UTF-8 and keep
the first 500 characters; `none` when that decode itself raises. -/
def mainExcerpt (file : List Nat) : Option (List Nat) :=
  (utf8Decode file).toOption.map (fun cs => cs.take 500)

/-- The schema check of `main` (src/app.py lines 117-122):
`set(df1.columns) != set(df2.columns)` triggers a warning and the comparison
only proceeds when the "Proceed with comparison anyway" checkbox is ticked.
Returns `(mismatchReported, proceed)` as a function of the checkbox state. -/
def schemaGate {α : Type} (df1 df2 : Table α) (proceedAnyway : Bool) :
    Bool × Bool :=
  if df1.columns.toFinset = df2.columns.toFinset then (false, true)
  else (true, proceedAnyway)

/-- The unticked initial state of the `st.checkbox` override
(src/app.py line 121): a Streamlit checkbox defaults to `False`. -/
def checkboxDefault : Bool := false

/-- `pd.concat([unique_df1, unique_df2], ignore_index=True)`
(src/app.py line 162), modelled for result tables sharing a column schema:
the rows of the first table followed by the rows of the second, under the
first table's columns (pandas column behaviour across mismatched schemas is
not modelled; the spec leaves it undefined). -/
def combineResults {α : Type} (u1 u2 : Table α) : Table α :=
  ⟨u1.columns, u1.rows ++ u2.rows⟩

theorem utf8Decode_ascii_cons (b : Nat) (hb : b < 0x80) (l : List Nat) :
    utf8Decode (b :: l) = (utf8Decode l).map (fun cs => b :: cs) := by
  simp [utf8Decode, utf8DecodeAux, hb]

theorem utf8Decode_replicate_ascii (n : Nat) (l : List Nat) :
    utf8Decode (List.replicate n 97 ++ l) =
      (utf8Decode l).map (fun cs => List.replicate n 97 ++ cs) := by
  induction n with
  | zero =>
      simp only [List.replicate_zero, List.nil_append]
      cases h : utf8Decode l <;> simp [h, Except.map]
  | succ k ih =>
      rw [List.replicate_succ, List.cons_append]
      rw [utf8Decode_ascii_cons 97 (by norm_num) _]
      rw [ih]
      cases h : utf8Decode l <;> simp [h, Except.map, List.replicate_succ]

theorem countP_eq_zero_of_not_mem {β : Type} [DecidableEq β] {l : List β} {v : β}
    (hv : v ∉ l) : l.countP (fun r => decide (r = v)) = 0 := by
  rw [List.countP_eq_zero]
  intro a ha
  simp only [decide_eq_true_eq]
  rintro rfl
  exact hv ha

theorem countP_le_one_of_nodup {β : Type} [DecidableEq β] {l : List β}
    (hl : l.Nodup) (v : β) : l.countP (fun r => decide (r = v)) ≤ 1 := by
  induction l with
  | nil => simp
  | cons b l ih =>
      rw [List.countP_cons]
      rcases List.nodup_cons.mp hl with ⟨hb, hl2⟩
      by_cases hbv : b = v
      · subst hbv
        rw [countP_eq_zero_of_not_mem hb]
        simp
      · simp [hbv, ih hl2]

/-! Concrete tables used by the witnesses; `exA`/`exB` are the scenario of
spec.md §8 (columns in different orders, equal as sets). -/

def exA : Table Nat := ⟨["id", "val"], [[1, 10], [2, 20], [2, 20]]⟩

def exB : Table Nat := ⟨["val", "id"], [[2, 20], [3, 30]]⟩

def exC : Table Nat := ⟨["id", "val"], [[2, 20], [3, 30]]⟩

def exE : Table Nat := ⟨["id", "val"], []⟩

def exN : Table Nat := ⟨["id", "name"], []⟩

def exN2 : Table Nat := ⟨["name", "id"], []⟩

/-- C1: for input tables with equal column-name sets, the row-set of
`onlyInFirst` is the set of distinct row keys of the first table that are not
row keys of the second, reconstructed over the first table's columns, and
symmetrically for `onlyInSecond`; consequently every row of the first table
is in exactly one of "present in the second table" and "present in
`onlyInFirst`", and symmetrically for the second table. -/
theorem C1_difference_rowsets {α : Type} [DecidableEq α] (df1 df2 : Table α)
    (hcols : df1.columns.toFinset = df2.columns.toFinset) :
    rowSet (find_unique_records df1 df2).1 = rowSet df1 \ rowSet df2 ∧
    (find_unique_records df1 df2).1.columns = df1.columns ∧
    rowSet (find_unique_records df1 df2).2 = rowSet df2 \ rowSet df1 ∧
    (find_unique_records df1 df2).2.columns = df2.columns ∧
    (∀ r ∈ df1.rows,
      (r ∈ df2.rows ∧ r ∉ (find_unique_records df1 df2).1.rows) ∨
      (r ∉ df2.rows ∧ r ∈ (find_unique_records df1 df2).1.rows)) ∧
    (∀ r ∈ df2.rows,
      (r ∈ df1.rows ∧ r ∉ (find_unique_records df1 df2).2.rows) ∨
      (r ∉ df1.rows ∧ r ∈ (find_unique_records df1 df2).2.rows)) := by
  refine ⟨rowSet_unique_fst df1 df2, rfl, rowSet_unique_snd df1 df2, rfl, ?_, ?_⟩
  · intro r hr
    by_cases h2 : r ∈ df2.rows
    · exact .inl ⟨h2, fun hmem => ((mem_unique_fst df1 df2 r).1 hmem).2 h2⟩
    · exact .inr ⟨h2, (mem_unique_fst df1 df2 r).2 ⟨hr, h2⟩⟩
  · intro r hr
    by_cases h1 : r ∈ df1.rows
    · exact .inl ⟨h1, fun hmem => ((mem_unique_snd df1 df2 r).1 hmem).2 h1⟩
    · exact .inr ⟨h1, (mem_unique_snd df1 df2 r).2 ⟨hr, h1⟩⟩

/-- Witness for C1 at the spec's §8 scenario tables. -/
theorem C1_difference_rowsets_witness :
    exA.columns.toFinset = exB.columns.toFinset ∧
    (rowSet (find_unique_records exA exB).1 = rowSet exA \ rowSet exB ∧
     (find_unique_records exA exB).1.columns = exA.columns ∧
     rowSet (find_unique_records exA exB).2 = rowSet exB \ rowSet exA ∧
     (find_unique_records exA exB).2.columns = exB.columns ∧
     (∀ r ∈ exA.rows,
       (r ∈ exB.rows ∧ r ∉ (find_unique_records exA exB).1.rows) ∨
       (r ∉ exB.rows ∧ r ∈ (find_unique_records exA exB).1.rows)) ∧
     (∀ r ∈ exB.rows,
       (r ∈ exA.rows ∧ r ∉ (find_unique_records exA exB).2.rows) ∨
       (r ∉ exA.rows ∧ r ∈ (find_unique_records exA exB).2.rows))) :=
  ⟨by decide, C1_difference_rowsets exA exB (by decide)⟩

/-- C2: N identical rows (N ≥ 1) within one input table yield at most one row
with that row key in the corresponding difference output: multiplicity is not
preserved. -/
theorem C2_duplicate_collapse {α : Type} [DecidableEq α] (df1 df2 : Table α)
    (v : List α) (n : Nat) (hn : 1 ≤ n) :
    (df1.rows.countP (fun r => decide (r = v)) = n →
      (find_unique_records df1 df2).1.rows.countP (fun r => decide (r = v)) ≤ 1) ∧
    (df2.rows.countP (fun r => decide (r = v)) = n →
      (find_unique_records df1 df2).2.rows.countP (fun r => decide (r = v)) ≤ 1) :=
  ⟨fun _ => countP_le_one_of_nodup (nodup_unique_fst df1 df2) v,
   fun _ => countP_le_one_of_nodup (nodup_unique_snd df1 df2) v⟩

/-- Witness for C2: the row `[2, 20]` appears twice in `exA`. -/
theorem C2_duplicate_collapse_witness :
    1 ≤ 2 ∧
    ((exA.rows.countP (fun r => decide (r = [2, 20])) = 2 →
       (find_unique_records exA exB).1.rows.countP (fun r => decide (r = [2, 20])) ≤ 1) ∧
     (exB.rows.countP (fun r => decide (r = [2, 20])) = 2 →
       (find_unique_records exA exB).2.rows.countP (fun r => decide (r = [2, 20])) ≤ 1)) :=
  ⟨by decide, C2_duplicate_collapse exA exB [2, 20] 2 (by decide)⟩

/-- C5: symmetry — the row-set of `onlyInFirst` of comparing A to B equals
the row-set of `onlyInSecond` of comparing B to A. -/
theorem C5_symmetry {α : Type} [DecidableEq α] (df1 df2 : Table α)
    (hcols : df1.columns.toFinset = df2.columns.toFinset) :
    rowSet (find_unique_records df1 df2).1 = rowSet (find_unique_records df2 df1).2 := by
  rw [rowSet_unique_fst, rowSet_unique_snd]

/-- Witness for C5 at the spec's §8 scenario tables. -/
theorem C5_symmetry_witness :
    exA.columns.toFinset = exB.columns.toFinset ∧
    rowSet (find_unique_records exA exB).1 = rowSet (find_unique_records exB exA).2 :=
  ⟨by decide, C5_symmetry exA exB (by decide)⟩

/-- C6: appending a duplicate of a row already present in the first table
does not change either result row-set. -/
theorem C6_append_duplicate {α : Type} [DecidableEq α] (df1 df2 : Table α)
    (r : List α) (hr : r ∈ df1.rows)
    (hcols : df1.columns.toFinset = df2.columns.toFinset) :
    rowSet (find_unique_records (Table.mk df1.columns (df1.rows ++ [r])) df2).1
      = rowSet (find_unique_records df1 df2).1 ∧
    rowSet (find_unique_records (Table.mk df1.columns (df1.rows ++ [r])) df2).2
      = rowSet (find_unique_records df1 df2).2 := by
  have hset : rowSet (Table.mk df1.columns (df1.rows ++ [r])) = rowSet df1 := by
    ext x
    simp only [rowSet, List.mem_toFinset, List.mem_append, List.mem_singleton]
    constructor
    · rintro (hx | rfl)
      · exact hx
      · exact hr
    · exact Or.inl
  constructor
  · rw [rowSet_unique_fst, rowSet_unique_fst, hset]
  · rw [rowSet_unique_snd, rowSet_unique_snd, hset]

/-- Witness for C6: appending a second copy of `[2, 20]` to `exA`. -/
theorem C6_append_duplicate_witness :
    [2, 20] ∈ exA.rows ∧ exA.columns.toFinset = exB.columns.toFinset ∧
    (rowSet (find_unique_records (Table.mk exA.columns (exA.rows ++ [[2, 20]])) exB).1
       = rowSet (find_unique_records exA exB).1 ∧
     rowSet (find_unique_records (Table.mk exA.columns (exA.rows ++ [[2, 20]])) exB).2
       = rowSet (find_unique_records exA exB).2) :=
  ⟨by decide, by decide, C6_append_duplicate exA exB [2, 20] (by decide) (by decide)⟩

/-- C7: comparing a table to itself yields two empty result tables; comparing
a table to an empty table with the same schema yields `onlyInFirst` equal to
the deduplicated rows of the first table and `onlyInSecond` empty. -/
theorem C7_empty_cases {α : Type} [DecidableEq α] (df E : Table α)
    (hE : E.rows = []) (hcols : E.columns = df.columns) :
    (find_unique_records df df).1.rows = [] ∧
    (find_unique_records df df).2.rows = [] ∧
    (find_unique_records df E).1.rows = df.rows.dedup ∧
    (find_unique_records df E).2.rows = [] := by
  refine ⟨?_, ?_, ?_, ?_⟩
  · refine List.filter_eq_nil_iff.mpr ?_
    intro a ha
    simp only [decide_eq_true_eq, not_not]
    exact ha
  · refine List.filter_eq_nil_iff.mpr ?_
    intro a ha
    simp only [decide_eq_true_eq, not_not]
    exact ha
  · show (df.rows.dedup).filter _ = df.rows.dedup
    refine List.filter_eq_self.mpr ?_
    intro a _
    simp [hE]
  · show (E.rows.dedup).filter _ = []
    simp [hE]

/-- Witness for C7 with `exA` and the empty table `exE` over the same schema. -/
theorem C7_empty_cases_witness :
    exE.rows = [] ∧ exE.columns = exA.columns ∧
    ((find_unique_records exA exA).1.rows = [] ∧
     (find_unique_records exA exA).2.rows = [] ∧
     (find_unique_records exA exE).1.rows = exA.rows.dedup ∧
     (find_unique_records exA exE).2.rows = []) :=
  ⟨rfl, rfl, C7_empty_cases exA exE rfl rfl⟩

/-- C3: two-stage parse policy — the lenient pass is tried first and its
success is returned; only if it raises is the strict-fast pass run; when both
passes raise, the loader returns a failure outcome carrying the error message
(and `main` displays the first 500 characters of the decoded raw input). -/
theorem C3_two_stage_policy {α : Type}
    (lenientParse strictParse : List Nat → Except String (Table α))
    (file cs : List Nat) (hdec : utf8Decode (file.take 1024) = Except.ok cs) :
    (∀ t, lenientParse file = Except.ok t →
      read_csv_safely lenientParse strictParse file = (some t, none)) ∧
    (∀ e t, lenientParse file = Except.error e → strictParse file = Except.ok t →
      read_csv_safely lenientParse strictParse file = (some t, none)) ∧
    (∀ e1 e2, lenientParse file = Except.error e1 → strictParse file = Except.error e2 →
      read_csv_safely lenientParse strictParse file = (none, some e2)) ∧
    (∀ ds, utf8Decode file = Except.ok ds → mainExcerpt file = some (ds.take 500)) := by
  refine ⟨?_, ?_, ?_, ?_⟩
  · intro t ht
    simp [read_csv_safely, hdec, ht]
  · intro e t he ht
    simp [read_csv_safely, hdec, he, ht]
  · intro e1 e2 h1 h2
    simp [read_csv_safely, hdec, h1, h2]
  · intro ds hds
    simp [mainExcerpt, hds, Except.toOption]

/-- Witness for C3: an all-ASCII file on which both modelled passes raise. -/
theorem C3_two_stage_policy_witness :
    utf8Decode (([97, 97, 97] : List Nat).take 1024) = Except.ok [97, 97, 97] ∧
    read_csv_safely (fun _ => Except.error "lenient failure")
      (fun _ => Except.error "strict failure") ([97, 97, 97] : List Nat)
      = ((none : Option (Table Nat)), some "strict failure") :=
  ⟨rfl,
   (C3_two_stage_policy (fun _ => Except.error "lenient failure")
      (fun _ => Except.error "strict failure") [97, 97, 97] [97, 97, 97]
      rfl).2.2.1 "lenient failure" "strict failure" rfl rfl⟩

/-- C4: the schema check compares column-name sets order-independently; on a
mismatch it reports the condition, and the comparison proceeds exactly when
the explicit override checkbox is ticked — never under the checkbox's unticked
default state. -/
theorem C4_schema_gate_override {α : Type} (df1 df2 df2p : Table α)
    (proceedAnyway : Bool)
    (hmismatch : df1.columns.toFinset ≠ df2.columns.toFinset)
    (hperm : df2p.columns.Perm df2.columns) :
    schemaGate df1 df2p proceedAnyway = schemaGate df1 df2 proceedAnyway ∧
    schemaGate df1 df2 proceedAnyway = (true, proceedAnyway) ∧
    schemaGate df1 df2 checkboxDefault = (true, false) := by
  have hp : df2p.columns.toFinset = df2.columns.toFinset :=
    List.toFinset_eq_of_perm _ _ hperm
  refine ⟨?_, ?_, ?_⟩
  · simp [schemaGate, hp]
  · simp [schemaGate, hmismatch]
  · simp [schemaGate, hmismatch, checkboxDefault]

/-- Witness for C4: `exA` against `exN` (columns `["id","name"]`), with
`exN2` a column permutation of `exN`. -/
theorem C4_schema_gate_override_witness :
    exA.columns.toFinset ≠ exN.columns.toFinset ∧
    exN2.columns.Perm exN.columns ∧
    (schemaGate exA exN2 true = schemaGate exA exN true ∧
     schemaGate exA exN true = (true, true) ∧
     schemaGate exA exN checkboxDefault = (true, false)) :=
  ⟨by decide, by decide, C4_schema_gate_override exA exN exN2 true (by decide) (by decide)⟩

/-- C8: for every byte sequence and every behaviour of the two parse passes,
the loader returns either a table or a structured failure message — it never
produces anything else (the outer handler catches every raised exception). -/
theorem C8_loader_never_raises {α : Type}
    (lenientParse strictParse : List Nat → Except String (Table α))
    (file : List Nat) :
    (∃ t, read_csv_safely lenientParse strictParse file = (some t, none)) ∨
    (∃ e, read_csv_safely lenientParse strictParse file = (none, some e)) := by
  rcases h1 : utf8Decode (file.take 1024) with e | cs
  · exact Or.inr ⟨e, by simp [read_csv_safely, h1]⟩
  · rcases h2 : lenientParse file with e1 | t
    · rcases h3 : strictParse file with e2 | t
      · exact Or.inr ⟨e2, by simp [read_csv_safely, h1, h2, h3]⟩
      · exact Or.inl ⟨t, by simp [read_csv_safely, h1, h2, h3]⟩
    · exact Or.inl ⟨t, by simp [read_csv_safely, h1, h2]⟩

/-- C9: the combined table is all rows of `onlyInFirst` in their original
relative order, followed by all rows of `onlyInSecond` in their original
relative order, under `onlyInFirst`'s column schema (the two result tables
sharing a schema); its row-set is the union of the two one-sided
differences. -/
theorem C9_combined_concat {α : Type} [DecidableEq α] (df1 df2 : Table α)
    (hcols : (find_unique_records df1 df2).1.columns
      = (find_unique_records df1 df2).2.columns) :
    (combineResults (find_unique_records df1 df2).1 (find_unique_records df1 df2).2).columns
      = (find_unique_records df1 df2).1.columns ∧
    (combineResults (find_unique_records df1 df2).1 (find_unique_records df1 df2).2).rows.take
        (find_unique_records df1 df2).1.rows.length
      = (find_unique_records df1 df2).1.rows ∧
    (combineResults (find_unique_records df1 df2).1 (find_unique_records df1 df2).2).rows.drop
        (find_unique_records df1 df2).1.rows.length
      = (find_unique_records df1 df2).2.rows ∧
    rowSet (combineResults (find_unique_records df1 df2).1 (find_unique_records df1 df2).2)
      = (rowSet df1 \ rowSet df2) ∪ (rowSet df2 \ rowSet df1) := by
  refine ⟨rfl, by simp [combineResults], by simp [combineResults], ?_⟩
  have hu : rowSet (combineResults (find_unique_records df1 df2).1 (find_unique_records df1 df2).2)
      = rowSet (find_unique_records df1 df2).1 ∪ rowSet (find_unique_records df1 df2).2 := by
    simp [rowSet, combineResults]
  rw [hu, rowSet_unique_fst, rowSet_unique_snd]

/-- Witness for C9 with `exA` and `exC`, whose result tables share the column
schema `["id","val"]`. -/
theorem C9_combined_concat_witness :
    (find_unique_records exA exC).1.columns = (find_unique_records exA exC).2.columns ∧
    ((combineResults (find_unique_records exA exC).1 (find_unique_records exA exC).2).columns
       = (find_unique_records exA exC).1.columns ∧
     (combineResults (find_unique_records exA exC).1 (find_unique_records exA exC).2).rows.take
         (find_unique_records exA exC).1.rows.length
       = (find_unique_records exA exC).1.rows ∧
     (combineResults (find_unique_records exA exC).1 (find_unique_records exA exC).2).rows.drop
         (find_unique_records exA exC).1.rows.length
       = (find_unique_records exA exC).2.rows ∧
     rowSet (combineResults (find_unique_records exA exC).1 (find_unique_records exA exC).2)
       = (rowSet exA \ rowSet exC) ∪ (rowSet exC \ rowSet exA)) :=
  ⟨rfl, C9_combined_concat exA exC rfl⟩

/-- A 1025-byte file: 1023 ASCII bytes followed by the two-byte UTF-8
encoding of `é`; the whole file is valid UTF-8, but its first 1024 bytes end
in the middle of the two-byte sequence. -/
def splitCharFile : List Nat := List.replicate 1023 97 ++ [0xC3, 0xA9]

theorem splitCharFile_take :
    splitCharFile.take 1024 = List.replicate 1023 97 ++ [0xC3] := by
  rw [splitCharFile, List.take_append_eq_append_take, List.take_replicate,
    List.length_replicate]
  norm_num

/-- C10: the loader decodes the first 1024 bytes as UTF-8 before any parse
pass; there is an input that is entirely valid UTF-8 (its 1024th byte falls
inside a multi-byte sequence) on which the loader returns a failure outcome
regardless of what either parse pass would do — neither pass is attempted. -/
theorem C10_prefix_decode_blocks_parse :
    (∃ cs, utf8Decode splitCharFile = Except.ok cs) ∧
    (∃ e, utf8Decode (splitCharFile.take 1024) = Except.error e) ∧
    (∀ (α : Type) (lenientParse strictParse : List Nat → Except String (Table α)),
      read_csv_safely lenientParse strictParse splitCharFile
        = (none, some "unexpected end of data")) := by
  have hok : utf8Decode splitCharFile
      = Except.ok (List.replicate 1023 97 ++ [0xE9]) := by
    rw [splitCharFile, utf8Decode_replicate_ascii]
    rw [show utf8Decode [0xC3, 0xA9] = Except.ok [0xE9] from rfl]
    rfl
  have herr : utf8Decode (splitCharFile.take 1024)
      = Except.error "unexpected end of data" := by
    rw [splitCharFile_take, utf8Decode_replicate_ascii]
    rw [show utf8Decode [0xC3] = Except.error "unexpected end of data" from rfl]
    rfl
  refine ⟨⟨_, hok⟩, ⟨_, herr⟩, ?_⟩
  intro α lenientParse strictParse
  simp [read_csv_safely, herr]

end Duplicates
